import Mathlib

/-!
Shallow embedding of `webui_llm_tools/search/serp_search.py`.

The module performs a multi-page search against a SearxNG instance:
`WebsiteSearch._fetch_page` issues one HTTP GET per page and returns either
the raw `results` array of the decoded JSON body or the string
`"Page {page} failed: {e}"`; `WebsiteSearch._async_search` fans out over
pages `1..max_page_number`, scans the joined outcomes in page order,
short-circuits to a `WebsiteError` (or, for LLM output, the raw failure
string) on the first failure, normalizes raw records into `WebsiteData`
(pydantic validation: a record without a string `url` raises an uncaught
`ValidationError`), optionally sorts descending by score and truncates when
`max_results` is truthy, and optionally renders the survivors as
newline-joined JSON documents.

The HTTP transport (httpx) is abstracted as a function from page numbers to
`HttpResult` values describing what the library delivered: a transport-level
exception, or a response with a status code, the message the library's
`raise_for_status` would produce for that response, and the JSON-decoded
body.  Timestamps (`datetime.now()`) are passed in as an opaque `now`
string.  Machine floats (`score`) are modelled as rationals: the code only
ever compares scores, never does arithmetic on them.
-/

deriving instance DecidableEq for Except

namespace SerpSearch

/-- One raw result record of the JSON `results` array, as consumed by
`_async_search` through `item.get(...)`: every field the normalization reads
is optional (`.get` yields `None` when absent).  Fields carry the types the
wire protocol provides; `url` may be absent, which is the case pydantic
rejects. -/
structure RawItem where
  url : Option String := none
  title : Option String := none
  snippet : Option String := none
  content : Option String := none
  author : Option String := none
  date : Option String := none
  language : Option String := none
  engine : Option String := none
  engines : Option (List String) := none
  score : Option ℚ := none
  category : Option String := none
  published_date : Option String := none
deriving Repr, DecidableEq

/-- The pydantic model `WebsiteData`: one normalized search result. -/
structure WebsiteData where
  url : String
  title : Option String := none
  snippet : Option String := none
  content : Option String := none
  author : Option String := none
  date : Option String := none
  language : Option String := none
  engine : Option String := none
  engines : Option (List String) := none
  score : Option ℚ := none
  category : Option String := none
  published_date : Option String := none
  extracted_at : Option String := none
  success : Bool := true
deriving Repr, DecidableEq

/-- The pydantic model `WebsiteError`: a whole-query failure value. -/
structure WebsiteError where
  query : String
  error : String
  extracted_at : String
  success : Bool := false
deriving Repr, DecidableEq

/-- JSON body of a SearxNG response as far as `_fetch_page` inspects it:
`page_json.get("results", [])`. -/
structure SearxBody where
  results : Option (List RawItem)
deriving Repr, DecidableEq

/-- What the httpx transport delivered for one `client.get` call:
either an exception raised by the transport itself (connect error, timeout,
…) carrying its rendered message, or a response with a status code, the
message of the `HTTPStatusError` that `raise_for_status` would raise for it,
and the result of `response.json()` (a decode-error message or the decoded
body). -/
inductive HttpResult where
  | transportError (msg : String)
  | response (status : Nat) (statusErrMsg : String) (body : Except String SearxBody)

/-- `WebsiteSearch._fetch_page`: one attempt, no retries.  Any exception in
the `try` block — transport error, `raise_for_status` on a non-2xx status
(httpx's `is_success` range is 200..299), or a JSON decode error — is caught
and rendered as `"Page {page} failed: {e}"`; on success the raw `results`
array is returned, defaulting to `[]` when the field is absent. -/
def fetchPage (page : Nat) (r : HttpResult) : Sum (List RawItem) String :=
  match r with
  | .transportError m => Sum.inr ("Page " ++ toString page ++ " failed: " ++ m)
  | .response status statusErrMsg body =>
    if 200 ≤ status ∧ status ≤ 299 then
      match body with
      | .error m => Sum.inr ("Page " ++ toString page ++ " failed: " ++ m)
      | .ok j =>
        match j.results with
        | none => Sum.inl []
        | some rs => Sum.inl rs
    else Sum.inr ("Page " ++ toString page ++ " failed: " ++ statusErrMsg)

/-- Python's f-string coercion `f"{item.get('date')}"`: a present string is
kept as-is, an absent/null value is rendered as the literal text `"None"`. -/
def pyStr : Option String → String
  | none => "None"
  | some s => s

/-- Exceptions `_async_search` can raise (they escape uncaught):
the `ValueError` for a missing `SEARXNG_BASE_URL`, and the pydantic
`ValidationError` for a record whose `url` is not a string. -/
inductive SearchExc where
  | configError (msg : String)
  | validationError
deriving Repr, DecidableEq

/-- The `WebsiteData(...)` constructor call in `_async_search`, including the
pydantic validation: a missing `url` raises `ValidationError`; `date` and
`published_date` are always stringified via f-strings; `extracted_at` is
stamped with the current time; `success` is set to `True`. -/
def normItem (now : String) (it : RawItem) : Except SearchExc WebsiteData :=
  match it.url with
  | none => Except.error SearchExc.validationError
  | some u =>
    Except.ok
      { url := u, title := it.title, snippet := it.snippet, content := it.content,
        author := it.author, date := some (pyStr it.date), language := it.language,
        engine := it.engine, engines := it.engines, score := it.score,
        category := it.category, published_date := some (pyStr it.published_date),
        extracted_at := some now, success := true }

/-- The total normalization used to describe `normItem`'s successful output
(when `it.url` is present the `getD` default is never used). -/
def totalNorm (now : String) (it : RawItem) : WebsiteData :=
  { url := it.url.getD "", title := it.title, snippet := it.snippet, content := it.content,
    author := it.author, date := some (pyStr it.date), language := it.language,
    engine := it.engine, engines := it.engines, score := it.score,
    category := it.category, published_date := some (pyStr it.published_date),
    extracted_at := some now, success := true }

/-- The inner `for item in result` loop: normalize the records of one page in
array order, stopping at the first record that fails validation. -/
def normPage (now : String) : List RawItem → Except SearchExc (List WebsiteData)
  | [] => Except.ok []
  | it :: rest =>
    match normItem now it with
    | Except.error e => Except.error e
    | Except.ok d =>
      match normPage now rest with
      | Except.error e => Except.error e
      | Except.ok ds => Except.ok (d :: ds)

/-- The `for result in pages_results` loop: outcomes are scanned in page
order; a string outcome terminates the call with that failure message
(`Sum.inl`), otherwise the page's records are normalized and appended
(`Sum.inr` carries the accumulated `all_data`). -/
def scanPages (now : String) :
    List (Sum (List RawItem) String) → Except SearchExc (Sum String (List WebsiteData))
  | [] => Except.ok (Sum.inr [])
  | Sum.inr msg :: _ => Except.ok (Sum.inl msg)
  | Sum.inl items :: rest =>
    match normPage now items with
    | Except.error e => Except.error e
    | Except.ok ds =>
      match scanPages now rest with
      | Except.error e => Except.error e
      | Except.ok (Sum.inl msg) => Except.ok (Sum.inl msg)
      | Except.ok (Sum.inr tail) => Except.ok (Sum.inr (ds ++ tail))

/-- The sort key `lambda d: d.score if d.score is not None else 0`. -/
def scoreKey (d : WebsiteData) : ℚ := d.score.getD 0

/-- Insert one element into a score-descending list, keeping it before every
element whose key is not strictly larger — together with `pySortDesc` this is
the (unique) stable descending sort by `scoreKey`, the extensional behavior
of CPython's stable `list.sort(key=..., reverse=True)`. -/
def pyInsertDesc (x : WebsiteData) : List WebsiteData → List WebsiteData
  | [] => [x]
  | y :: ys => if scoreKey x < scoreKey y then y :: pyInsertDesc x ys else x :: y :: ys

/-- Stable descending sort by `scoreKey`; models `all_data.sort(key=..., reverse=True)`. -/
def pySortDesc : List WebsiteData → List WebsiteData
  | [] => []
  | x :: xs => pyInsertDesc x (pySortDesc xs)

/-- Python slicing `l[:m]` for an arbitrary integer bound: a nonnegative `m`
keeps the first `m` elements, a negative `m` drops the last `-m`. -/
def pySlice (m : Int) (l : List WebsiteData) : List WebsiteData :=
  if 0 ≤ m then l.take m.toNat else l.take ((l.length : Int) + m).toNat

/-- The `if max_results:` block of `_async_search`: Python truthiness skips
the sort/truncation both for `None` and for a provided `0`. -/
def rankTruncate (maxResults : Option Int) (l : List WebsiteData) : List WebsiteData :=
  match maxResults with
  | none => l
  | some m => if m = 0 then l else pySlice m (pySortDesc l)

/-- Character list of a string literal (pydantic's serializer is modelled at
the character level so that newline-splitting can be reasoned about). -/
def chars (s : String) : List Char := s.data

/-- Literal `{`. -/
def lbrace : Char := '\x7b'

/-- Literal `}`. -/
def rbrace : Char := '\x7d'

/-- Lower-case hex digit for `k % 16`. -/
def hexDigitChar (k : Nat) : Char :=
  if k % 16 < 10 then Char.ofNat (48 + k % 16) else Char.ofNat (87 + k % 16)

/-- JSON string escaping of one character, as the serializer behind
`model_dump_json` performs it: quote and backslash are backslash-escaped,
common control characters get their short escapes, remaining control
characters a `\u00XX` escape, and everything else is emitted verbatim. -/
def jsonEscapeChar (c : Char) : List Char :=
  if c = '"' then chars "\\\""
  else if c = '\\' then chars "\\\\"
  else if c = '\n' then chars "\\n"
  else if c = '\t' then chars "\\t"
  else if c = '\r' then chars "\\r"
  else if c.toNat < 32 then chars "\\u00" ++ [hexDigitChar (c.toNat / 16), hexDigitChar c.toNat]
  else [c]

/-- JSON string escaping of a character list. -/
def jsonEscape : List Char → List Char
  | [] => []
  | c :: cs => jsonEscapeChar c ++ jsonEscape cs

/-- A JSON string token: quoted, escaped content. -/
def jsonStr (s : String) : List Char := '"' :: (jsonEscape s.data ++ ['"'])

/-- The JSON `null` token. -/
def jsonNull : List Char := chars "null"

/-- Optional string field: `null` when the field is `None`. -/
def jsonOptStr : Option String → List Char
  | none => jsonNull
  | some s => jsonStr s

/-- Decimal digit character for `d % 10`. -/
def digitChar10 (d : Nat) : Char := Char.ofNat (48 + d % 10)

/-- Decimal rendering of a natural number (fuel-based accumulator form; the
fuel is structural so the definition evaluates inside the kernel). -/
def natCharsGo (fuel n : Nat) (acc : List Char) : List Char :=
  match fuel with
  | 0 => acc
  | fuel' + 1 =>
    if n < 10 then digitChar10 n :: acc
    else natCharsGo fuel' (n / 10) (digitChar10 (n % 10) :: acc)

/-- Decimal rendering of a natural number. -/
def natChars (n : Nat) : List Char := natCharsGo (n + 1) n []

/-- Rendering of a score as a JSON number.  The digits of the underlying
machine-float printing are abstracted (the claims never inspect them); what
matters for the line-splitting arguments is that the rendering is built from
sign, digit and punctuation characters only. -/
def ratChars (q : ℚ) : List Char :=
  (if q < 0 then ['-'] else []) ++ natChars q.num.natAbs ++
    (if q.den = 1 then [] else '/' :: natChars q.den)

/-- Optional numeric field: `null` when the field is `None`. -/
def jsonOptNum : Option ℚ → List Char
  | none => jsonNull
  | some q => ratChars q

/-- Comma-join of already-rendered JSON tokens. -/
def joinComma : List (List Char) → List Char
  | [] => []
  | [x] => x
  | x :: y :: xs => x ++ ',' :: joinComma (y :: xs)

/-- A JSON array of strings. -/
def jsonStrArr (l : List String) : List Char :=
  '[' :: (joinComma (l.map jsonStr) ++ [']'])

/-- Optional string-array field: `null` when the field is `None`. -/
def jsonOptStrArr : Option (List String) → List Char
  | none => jsonNull
  | some l => jsonStrArr l

/-- JSON booleans. -/
def jsonBool (b : Bool) : List Char := if b then chars "true" else chars "false"

/-- Concatenation of a list of character chunks (also used for per-page
record lists, in page order). -/
def concatAll : List (List α) → List α
  | [] => []
  | x :: xs => x ++ concatAll xs

/-- The key/value chunks of `d.model_dump_json()`, fields in declaration
order. -/
def dumpJsonPieces (d : WebsiteData) : List (List Char) :=
  [chars "\"url\":", jsonStr d.url,
   chars ",\"title\":", jsonOptStr d.title,
   chars ",\"snippet\":", jsonOptStr d.snippet,
   chars ",\"content\":", jsonOptStr d.content,
   chars ",\"author\":", jsonOptStr d.author,
   chars ",\"date\":", jsonOptStr d.date,
   chars ",\"language\":", jsonOptStr d.language,
   chars ",\"engine\":", jsonOptStr d.engine,
   chars ",\"engines\":", jsonOptStrArr d.engines,
   chars ",\"score\":", jsonOptNum d.score,
   chars ",\"category\":", jsonOptStr d.category,
   chars ",\"published_date\":", jsonOptStr d.published_date,
   chars ",\"extracted_at\":", jsonOptStr d.extracted_at,
   chars ",\"success\":", jsonBool d.success,
   [rbrace]]

/-- `d.model_dump_json()`: one `WebsiteData` rendered as a single JSON
object. -/
def dumpJsonChars (d : WebsiteData) : List Char :=
  lbrace :: concatAll (dumpJsonPieces d)

/-- Python's `"\n".join(...)`. -/
def joinNL : List (List Char) → List Char
  | [] => []
  | [x] => x
  | x :: y :: xs => x ++ '\n' :: joinNL (y :: xs)

/-- Python's `s.split("\n")`: note `"".split("\n") == [""]`, one (empty)
field, never zero fields. -/
def splitNL : List Char → List (List Char)
  | [] => [[]]
  | c :: rest =>
    if c = '\n' then [] :: splitNL rest
    else
      match splitNL rest with
      | [] => [[c]]
      | h :: t => (c :: h) :: t

/-- The `"\n".join(d.model_dump_json() for d in all_data)` expression. -/
def renderLLM (l : List WebsiteData) : List Char := joinNL (l.map dumpJsonChars)

/-- The three shapes `_async_search` can return: a structured result list, a
structured `WebsiteError`, or (for LLM output) a plain string. -/
inductive SearchOutput where
  | data (results : List WebsiteData)
  | failure (e : WebsiteError)
  | llm (s : String)
deriving Repr, DecidableEq

/-- `WebsiteSearch._async_search` (equivalently `search`, which merely runs
it on the event loop).  `env` is `os.getenv("SEARXNG_BASE_URL")`; `net`
abstracts the httpx transport, mapping each page number to what the shared
client delivered for it (the fan-out/join of `asyncio.gather` is modelled by
reading the joined outcomes in page order, which is exactly the order
`gather` presents them in); `now` stands for `datetime.now()`. -/
def asyncSearch (env : Option String) (query : String) (maxPageNumber : Nat)
    (maxResults : Option Int) (outputForLLM : Bool)
    (net : Nat → HttpResult) (now : String) : Except SearchExc SearchOutput :=
  match env with
  | none => Except.error (SearchExc.configError "SEARXNG_BASE_URL environment variable is not set.")
  | some baseUrl =>
    if baseUrl = "" then
      Except.error (SearchExc.configError "SEARXNG_BASE_URL environment variable is not set.")
    else
      match scanPages now ((List.range' 1 maxPageNumber).map (fun p => fetchPage p (net p))) with
      | Except.error e => Except.error e
      | Except.ok (Sum.inl msg) =>
        Except.ok
          (if outputForLLM then SearchOutput.llm msg
           else SearchOutput.failure
             { query := query, error := msg, extracted_at := now, success := false })
      | Except.ok (Sum.inr allData) =>
        Except.ok
          (if outputForLLM then
             SearchOutput.llm (String.mk (renderLLM (rankTruncate maxResults allData)))
           else SearchOutput.data (rankTruncate maxResults allData))

/-! ### Normalization lemmas -/

theorem normItem_ok (now : String) (it : RawItem) (u : String) (hu : it.url = some u) :
    normItem now it = Except.ok (totalNorm now it) := by
  simp [normItem, totalNorm, hu]

theorem normItem_err (now : String) (it : RawItem) (hu : it.url = none) :
    normItem now it = Except.error SearchExc.validationError := by
  simp [normItem, hu]

theorem normPage_ok (now : String) :
    ∀ its : List RawItem, (∀ it ∈ its, it.url ≠ none) →
      normPage now its = Except.ok (its.map (totalNorm now)) := by
  intro its
  induction its with
  | nil => intro _; simp [normPage]
  | cons it rest ih =>
    intro h
    have hu : it.url ≠ none := h it (List.mem_cons_self it rest)
    rcases Option.ne_none_iff_exists'.mp hu with ⟨u, hu'⟩
    have hrest := ih (fun x hx => h x (List.mem_cons_of_mem it hx))
    simp [normPage, normItem_ok now it u hu', hrest]

theorem normPage_err (now : String) :
    ∀ its : List RawItem, (∃ it ∈ its, it.url = none) →
      normPage now its = Except.error SearchExc.validationError := by
  intro its
  induction its with
  | nil => intro h; simp at h
  | cons it rest ih =>
    intro h
    rcases h with ⟨bad, hmem, hbad⟩
    rcases List.mem_cons.mp hmem with heq | hmem'
    · subst heq
      simp [normPage, normItem_err now bad hbad]
    · cases hu : it.url with
      | none => simp [normPage, normItem_err now it hu]
      | some u =>
        simp [normPage, normItem_ok now it u hu, ih ⟨bad, hmem', hbad⟩]

theorem normPage_error_eq (now : String) :
    ∀ (its : List RawItem) (e : SearchExc),
      normPage now its = Except.error e → e = SearchExc.validationError := by
  intro its e h
  by_cases hbad : ∃ it ∈ its, it.url = none
  · rw [normPage_err now its hbad] at h
    exact ((Except.error.injEq _ _).mp h).symm
  · push_neg at hbad
    rw [normPage_ok now its hbad] at h
    exact Except.noConfusion h

theorem normPage_success (now : String) :
    ∀ (its : List RawItem) (ds : List WebsiteData),
      normPage now its = Except.ok ds → ∀ d ∈ ds, d.success = true := by
  intro its
  induction its with
  | nil => intro ds h; simp [normPage] at h; subst h; simp
  | cons it rest ih =>
    intro ds h d hd
    rw [normPage] at h
    cases hn : normItem now it with
    | error e => rw [hn] at h; cases h
    | ok d0 =>
      rw [hn] at h
      cases hr : normPage now rest with
      | error e => rw [hr] at h; cases h
      | ok ds' =>
        rw [hr] at h
        cases h
        rcases List.mem_cons.mp hd with heq | hmem
        · subst heq
          cases hu : it.url with
          | none => rw [normItem_err now it hu] at hn; cases hn
          | some u =>
            rw [normItem_ok now it u hu] at hn
            cases hn
            rfl
        · exact ih ds' hr d hmem

/-! ### Scan lemmas: the page-order loop over joined fetch outcomes -/

theorem scan_fail (now : String) (net : Nat → HttpResult) (msg : String) :
    ∀ (n s k : Nat), s ≤ k → k < s + n →
      fetchPage k (net k) = Sum.inr msg →
      (∀ j, s ≤ j → j < k →
        ∃ its, fetchPage j (net j) = Sum.inl its ∧ ∀ it ∈ its, it.url ≠ none) →
      scanPages now ((List.range' s n).map (fun p => fetchPage p (net p))) =
        Except.ok (Sum.inl msg) := by
  intro n
  induction n with
  | zero => intro s k hsk hk _ _; omega
  | succ n ih =>
    intro s k hsk hk hfail hpre
    rcases Nat.eq_or_lt_of_le hsk with heq | hlt
    · subst heq
      simp [List.range', scanPages, hfail]
    · rcases hpre s le_rfl hlt with ⟨its, hits, hok⟩
      have hrest := ih (s + 1) k hlt (by omega) hfail (fun j hj1 hj2 => hpre j (by omega) hj2)
      simp [List.range', scanPages, hits, normPage_ok now its hok, hrest]

theorem scan_ok (now : String) (net : Nat → HttpResult) (its : Nat → List RawItem) :
    ∀ (n s : Nat),
      (∀ j, s ≤ j → j < s + n →
        fetchPage j (net j) = Sum.inl (its j) ∧ ∀ it ∈ its j, it.url ≠ none) →
      scanPages now ((List.range' s n).map (fun p => fetchPage p (net p))) =
        Except.ok (Sum.inr (concatAll ((List.range' s n).map (fun j => (its j).map (totalNorm now))))) := by
  intro n
  induction n with
  | zero => intro s _; simp [List.range', scanPages, concatAll]
  | succ n ih =>
    intro s h
    have hs := h s le_rfl (by omega)
    have hrest := ih (s + 1) (fun j hj1 hj2 => h j (by omega) (by omega))
    simp [List.range', scanPages, hs.1, normPage_ok now (its s) hs.2, hrest, concatAll]

theorem scan_val (now : String) (net : Nat → HttpResult) :
    ∀ (n s p : Nat), s ≤ p → p < s + n →
      (∀ j, s ≤ j → j < p → ∃ its, fetchPage j (net j) = Sum.inl its) →
      (∃ its, fetchPage p (net p) = Sum.inl its ∧ ∃ it ∈ its, it.url = none) →
      scanPages now ((List.range' s n).map (fun q => fetchPage q (net q))) =
        Except.error SearchExc.validationError := by
  intro n
  induction n with
  | zero => intro s p hsp hp _ _; omega
  | succ n ih =>
    intro s p hsp hp hpre hbad
    rcases Nat.eq_or_lt_of_le hsp with heq | hlt
    · subst heq
      rcases hbad with ⟨its, hits, hbaditem⟩
      simp [List.range', scanPages, hits, normPage_err now its hbaditem]
    · rcases hpre s le_rfl hlt with ⟨its, hits⟩
      cases hn : normPage now its with
      | error e =>
        have he := normPage_error_eq now its e hn
        subst he
        simp [List.range', scanPages, hits, hn]
      | ok ds =>
        have hrest := ih (s + 1) p hlt (by omega) (fun j hj1 hj2 => hpre j (by omega) hj2) hbad
        simp [List.range', scanPages, hits, hn, hrest]

theorem scan_success (now : String) :
    ∀ (ps : List (Sum (List RawItem) String)) (l : List WebsiteData),
      scanPages now ps = Except.ok (Sum.inr l) → ∀ d ∈ l, d.success = true := by
  intro ps
  induction ps with
  | nil =>
    intro l h
    rw [scanPages] at h
    cases h
    intro d hd
    simp at hd
  | cons o rest ih =>
    intro l h d hd
    cases o with
    | inr msg => rw [scanPages] at h; cases h
    | inl items =>
      rw [scanPages] at h
      cases hn : normPage now items with
      | error e => rw [hn] at h; cases h
      | ok ds =>
        rw [hn] at h
        cases hr : scanPages now rest with
        | error e => rw [hr] at h; cases h
        | ok r =>
          rw [hr] at h
          cases r with
          | inl msg => cases h
          | inr tail =>
            cases h
            rcases List.mem_append.mp hd with hmem | hmem
            · exact normPage_success now items ds hn d hmem
            · exact ih tail hr d hmem

/-! ### Sorting lemmas: stable descending sort by score -/

theorem mem_pyInsertDesc (x a : WebsiteData) :
    ∀ l : List WebsiteData, a ∈ pyInsertDesc x l ↔ a = x ∨ a ∈ l := by
  intro l
  induction l with
  | nil => simp [pyInsertDesc]
  | cons y ys ih =>
    by_cases hxy : scoreKey x < scoreKey y
    · simp [pyInsertDesc, hxy, ih]
      tauto
    · simp [pyInsertDesc, hxy]

theorem length_pyInsertDesc (x : WebsiteData) :
    ∀ l : List WebsiteData, (pyInsertDesc x l).length = l.length + 1 := by
  intro l
  induction l with
  | nil => simp [pyInsertDesc]
  | cons y ys ih =>
    by_cases hxy : scoreKey x < scoreKey y
    · simp [pyInsertDesc, hxy, ih]
    · simp [pyInsertDesc, hxy]

theorem length_pySortDesc :
    ∀ l : List WebsiteData, (pySortDesc l).length = l.length := by
  intro l
  induction l with
  | nil => simp [pySortDesc]
  | cons x xs ih => simp [pySortDesc, length_pyInsertDesc, ih]

theorem mem_pySortDesc (a : WebsiteData) :
    ∀ l : List WebsiteData, a ∈ pySortDesc l ↔ a ∈ l := by
  intro l
  induction l with
  | nil => simp [pySortDesc]
  | cons x xs ih => simp [pySortDesc, mem_pyInsertDesc, ih]

theorem pairwise_pyInsertDesc (x : WebsiteData) :
    ∀ l : List WebsiteData,
      l.Pairwise (fun a b => scoreKey b ≤ scoreKey a) →
      (pyInsertDesc x l).Pairwise (fun a b => scoreKey b ≤ scoreKey a) := by
  intro l
  induction l with
  | nil => intro _; simp [pyInsertDesc]
  | cons y ys ih =>
    intro h
    rcases List.pairwise_cons.mp h with ⟨hy, hys⟩
    by_cases hxy : scoreKey x < scoreKey y
    · rw [pyInsertDesc, if_pos hxy]
      refine List.pairwise_cons.mpr ⟨?_, ih hys⟩
      intro b hb
      rcases (mem_pyInsertDesc x b ys).mp hb with heq | hmem
      · subst heq; exact le_of_lt hxy
      · exact hy b hmem
    · rw [pyInsertDesc, if_neg hxy]
      refine List.pairwise_cons.mpr ⟨?_, h⟩
      intro b hb
      rcases List.mem_cons.mp hb with heq | hmem
      · subst heq; exact le_of_not_lt hxy
      · exact le_trans (hy b hmem) (le_of_not_lt hxy)

theorem pairwise_pySortDesc :
    ∀ l : List WebsiteData,
      (pySortDesc l).Pairwise (fun a b => scoreKey b ≤ scoreKey a) := by
  intro l
  induction l with
  | nil => simp [pySortDesc]
  | cons x xs ih => exact pairwise_pyInsertDesc x (pySortDesc xs) ih

theorem filter_pyInsertDesc (c : ℚ) (x : WebsiteData) :
    ∀ l : List WebsiteData,
      (pyInsertDesc x l).filter (fun d => decide (scoreKey d = c)) =
        if scoreKey x = c then x :: l.filter (fun d => decide (scoreKey d = c))
        else l.filter (fun d => decide (scoreKey d = c)) := by
  intro l
  induction l with
  | nil =>
    by_cases hx : scoreKey x = c <;> simp [pyInsertDesc, List.filter, hx]
  | cons y ys ih =>
    by_cases hxy : scoreKey x < scoreKey y
    · rw [pyInsertDesc, if_pos hxy]
      by_cases hy : scoreKey y = c
      · have hx : ¬ scoreKey x = c := by
          intro hx
          rw [hx, hy] at hxy
          exact lt_irrefl c hxy
        simp [List.filter, hy, hx, ih]
      · simp [List.filter, hy, ih]
    · rw [pyInsertDesc, if_neg hxy]
      by_cases hx : scoreKey x = c <;> simp [List.filter, hx]

theorem filter_pySortDesc (c : ℚ) :
    ∀ l : List WebsiteData,
      (pySortDesc l).filter (fun d => decide (scoreKey d = c)) =
        l.filter (fun d => decide (scoreKey d = c)) := by
  intro l
  induction l with
  | nil => simp [pySortDesc]
  | cons x xs ih =>
    rw [pySortDesc, filter_pyInsertDesc c x (pySortDesc xs)]
    by_cases hx : scoreKey x = c <;> simp [List.filter, hx, ih]

theorem mem_rankTruncate (mr : Option Int) (l : List WebsiteData) (d : WebsiteData) :
    d ∈ rankTruncate mr l → d ∈ l := by
  intro h
  cases mr with
  | none => exact h
  | some m =>
    rw [rankTruncate] at h
    by_cases hm : m = 0
    · rw [if_pos hm] at h; exact h
    · rw [if_neg hm, pySlice] at h
      by_cases hnn : (0 : Int) ≤ m
      · rw [if_pos hnn] at h
        exact (mem_pySortDesc d l).mp (List.take_subset _ _ h)
      · rw [if_neg hnn] at h
        exact (mem_pySortDesc d l).mp (List.take_subset _ _ h)

/-! ### Counting lemmas -/

theorem length_concatAll :
    ∀ ls : List (List α), (concatAll ls).length = (ls.map List.length).sum := by
  intro ls
  induction ls with
  | nil => simp [concatAll]
  | cons x xs ih => simp [concatAll, ih]

/-! ### Newline-freeness of serialized records, and split/join lemmas -/

theorem digitChar10_ne_nl (d : Nat) : digitChar10 d ≠ '\n' := by
  unfold digitChar10
  have h : d % 10 < 10 := Nat.mod_lt d (by norm_num)
  set m := d % 10 with hm
  interval_cases m <;> decide

theorem hexDigitChar_ne_nl (k : Nat) : hexDigitChar k ≠ '\n' := by
  unfold hexDigitChar
  have h : k % 16 < 16 := Nat.mod_lt k (by norm_num)
  set m := k % 16 with hm
  interval_cases m <;> decide

theorem nl_natCharsGo :
    ∀ (fuel n : Nat) (acc : List Char), '\n' ∉ acc → '\n' ∉ natCharsGo fuel n acc := by
  intro fuel
  induction fuel with
  | zero => intro n acc hacc; exact hacc
  | succ fuel ih =>
    intro n acc hacc
    rw [natCharsGo]
    by_cases hn : n < 10
    · rw [if_pos hn]
      intro hmem
      rcases List.mem_cons.mp hmem with heq | hmem'
      · exact digitChar10_ne_nl n heq.symm
      · exact hacc hmem'
    · rw [if_neg hn]
      refine ih (n / 10) (digitChar10 (n % 10) :: acc) ?_
      intro hmem
      rcases List.mem_cons.mp hmem with heq | hmem'
      · exact digitChar10_ne_nl (n % 10) heq.symm
      · exact hacc hmem'

theorem nl_natChars (n : Nat) : '\n' ∉ natChars n :=
  nl_natCharsGo (n + 1) n [] (by simp)

theorem nl_ratChars (q : ℚ) : '\n' ∉ ratChars q := by
  unfold ratChars
  intro hmem
  rcases List.mem_append.mp hmem with h1 | h2
  · rcases List.mem_append.mp h1 with h3 | h4
    · by_cases hq : q < 0
      · rw [if_pos hq] at h3; simp at h3
      · rw [if_neg hq] at h3; simp at h3
    · exact nl_natChars q.num.natAbs h4
  · by_cases hd : q.den = 1
    · rw [if_pos hd] at h2; simp at h2
    · rw [if_neg hd] at h2
      rcases List.mem_cons.mp h2 with heq | hmem'
      · exact absurd heq (by decide)
      · exact nl_natChars q.den hmem'

theorem nl_jsonEscapeChar (c : Char) : '\n' ∉ jsonEscapeChar c := by
  unfold jsonEscapeChar
  split
  · decide
  · split
    · decide
    · split
      · decide
      · split
        · decide
        · split
          · decide
          · split
            · rename_i h1 h2 h3 h4 h5 h6
              intro hmem
              rcases List.mem_append.mp hmem with h | h
              · revert h; decide
              · rcases List.mem_cons.mp h with heq | h'
                · exact hexDigitChar_ne_nl (c.toNat / 16) heq.symm
                · rcases List.mem_cons.mp h' with heq | h''
                  · exact hexDigitChar_ne_nl c.toNat heq.symm
                  · simp at h''
            · rename_i h1 h2 h3 h4 h5 h6
              intro hmem
              rcases List.mem_singleton.mp hmem with heq
              exact h3 heq.symm

theorem nl_jsonEscape : ∀ cs : List Char, '\n' ∉ jsonEscape cs := by
  intro cs
  induction cs with
  | nil => simp [jsonEscape]
  | cons c rest ih =>
    rw [jsonEscape]
    intro hmem
    rcases List.mem_append.mp hmem with h | h
    · exact nl_jsonEscapeChar c h
    · exact ih h

theorem nl_jsonStr (s : String) : '\n' ∉ jsonStr s := by
  rw [jsonStr]
  intro hmem
  rcases List.mem_cons.mp hmem with heq | h
  · exact absurd heq (by decide)
  · rcases List.mem_append.mp h with h1 | h2
    · exact nl_jsonEscape s.data h1
    · simp at h2

theorem nl_jsonOptStr (o : Option String) : '\n' ∉ jsonOptStr o := by
  cases o with
  | none => rw [jsonOptStr]; decide
  | some s => exact nl_jsonStr s

theorem nl_jsonOptNum (o : Option ℚ) : '\n' ∉ jsonOptNum o := by
  cases o with
  | none => rw [jsonOptNum]; decide
  | some q => exact nl_ratChars q

theorem nl_joinComma :
    ∀ ls : List (List Char), (∀ l ∈ ls, '\n' ∉ l) → '\n' ∉ joinComma ls := by
  intro ls
  induction ls with
  | nil => intro _; simp [joinComma]
  | cons x xs ih =>
    intro h
    cases xs with
    | nil => exact h x (List.mem_cons_self x [])
    | cons y ys =>
      rw [joinComma]
      intro hmem
      rcases List.mem_append.mp hmem with h1 | h2
      · exact h x (List.mem_cons_self x (y :: ys)) h1
      · rcases List.mem_cons.mp h2 with heq | h3
        · exact absurd heq (by decide)
        · exact ih (fun l hl => h l (List.mem_cons_of_mem x hl)) h3

theorem nl_jsonStrArr (l : List String) : '\n' ∉ jsonStrArr l := by
  rw [jsonStrArr]
  intro hmem
  rcases List.mem_cons.mp hmem with heq | h
  · exact absurd heq (by decide)
  · rcases List.mem_append.mp h with h1 | h2
    · refine nl_joinComma (l.map jsonStr) ?_ h1
      intro x hx
      rcases List.mem_map.mp hx with ⟨s, _, heq⟩
      subst heq
      exact nl_jsonStr s
    · simp at h2

theorem nl_jsonOptStrArr (o : Option (List String)) : '\n' ∉ jsonOptStrArr o := by
  cases o with
  | none => rw [jsonOptStrArr]; decide
  | some l => exact nl_jsonStrArr l

theorem nl_jsonBool (b : Bool) : '\n' ∉ jsonBool b := by
  cases b <;> decide

theorem nl_append {a b : List Char} (ha : '\n' ∉ a) (hb : '\n' ∉ b) : '\n' ∉ a ++ b := by
  intro h
  rcases List.mem_append.mp h with h' | h'
  · exact ha h'
  · exact hb h'

theorem nl_concatAll :
    ∀ ls : List (List Char), (∀ l ∈ ls, '\n' ∉ l) → '\n' ∉ concatAll ls := by
  intro ls
  induction ls with
  | nil => intro _; simp [concatAll]
  | cons x xs ih =>
    intro h
    rw [concatAll]
    exact nl_append (h x (List.mem_cons_self x xs)) (ih (fun l hl => h l (List.mem_cons_of_mem x hl)))

theorem nl_dumpJsonChars (d : WebsiteData) : '\n' ∉ dumpJsonChars d := by
  rw [dumpJsonChars]
  simp only [List.mem_cons, not_or]
  refine ⟨by decide, ?_⟩
  apply nl_concatAll
  intro l hl
  simp only [dumpJsonPieces, List.mem_cons] at hl
  rcases hl with rfl|rfl|rfl|rfl|rfl|rfl|rfl|rfl|rfl|rfl|rfl|rfl|rfl|rfl|rfl|rfl|rfl|rfl|rfl|rfl|rfl|rfl|rfl|rfl|rfl|rfl|rfl|rfl|rfl|h
  all_goals first
    | exact nl_jsonStr _
    | exact nl_jsonOptStr _
    | exact nl_jsonOptStrArr _
    | exact nl_jsonOptNum _
    | exact nl_jsonBool _
    | decide
    | simp at h

theorem splitNL_no_nl : ∀ cs : List Char, '\n' ∉ cs → splitNL cs = [cs] := by
  intro cs
  induction cs with
  | nil => intro _; rfl
  | cons c rest ih =>
    intro h
    have hc : ¬ c = '\n' := fun heq => h (heq ▸ List.mem_cons_self c rest)
    have hrest : '\n' ∉ rest := fun hm => h (List.mem_cons_of_mem c hm)
    rw [splitNL, if_neg hc, ih hrest]

theorem splitNL_append_nl :
    ∀ (l cs : List Char), '\n' ∉ l → splitNL (l ++ '\n' :: cs) = l :: splitNL cs := by
  intro l
  induction l with
  | nil => intro cs _; simp [splitNL]
  | cons c l' ih =>
    intro cs h
    have hc : ¬ c = '\n' := fun heq => h (heq ▸ List.mem_cons_self c l')
    have hl' : '\n' ∉ l' := fun hm => h (List.mem_cons_of_mem c hm)
    rw [List.cons_append, splitNL, if_neg hc, ih cs hl']

theorem splitNL_joinNL :
    ∀ ls : List (List Char), ls ≠ [] → (∀ l ∈ ls, '\n' ∉ l) →
      splitNL (joinNL ls) = ls := by
  intro ls
  induction ls with
  | nil => intro h _; exact absurd rfl h
  | cons x xs ih =>
    intro _ h
    cases xs with
    | nil => exact splitNL_no_nl x (h x (List.mem_cons_self x []))
    | cons y ys =>
      rw [joinNL, splitNL_append_nl x _ (h x (List.mem_cons_self x (y :: ys)))]
      rw [ih (by simp) (fun l hl => h l (List.mem_cons_of_mem x hl))]

/-! ### Claim C5 -/

/-- Claim C5: if the `SEARXNG_BASE_URL` configuration value is absent or
empty, every `search` call fails immediately with the configuration
`ValueError` — the result is this raised error (never a `SearchFailure`
value), and it does not depend on the transport `net` at all, i.e. zero
fetches are consulted. -/
theorem c5_config_error_before_any_fetch (env : Option String) (q : String) (N : Nat)
    (mr : Option Int) (fl : Bool) (net : Nat → HttpResult) (now : String)
    (h : env = none ∨ env = some "") :
    asyncSearch env q N mr fl net now =
      Except.error (SearchExc.configError "SEARXNG_BASE_URL environment variable is not set.") := by
  rcases h with h | h <;> subst h <;> rfl

/-- Witness for C5 at a concrete unset environment. -/
theorem c5_config_error_before_any_fetch_witness :
    asyncSearch none "rust ownership" 5 none false (fun _ => HttpResult.transportError "never issued") "t" =
      Except.error (SearchExc.configError "SEARXNG_BASE_URL environment variable is not set.") :=
  c5_config_error_before_any_fetch none "rust ownership" 5 none false
    (fun _ => HttpResult.transportError "never issued") "t" (Or.inl rfl)

/-! ### Claim C6 -/

/-- Claim C6: `_fetch_page` consumes exactly one transport outcome (a single
attempt, no retries).  On a transport error, a non-2xx status, or a JSON
decode error it returns the failure string `"Page {p} failed: {underlying}"`
with the underlying error's message; on success it returns the raw `results`
array, or the empty list when the field is absent. -/
theorem c6_fetch_page_contract (p : Nat) :
    (∀ m : String, fetchPage p (HttpResult.transportError m) =
        Sum.inr ("Page " ++ toString p ++ " failed: " ++ m)) ∧
    (∀ (status : Nat) (serr : String) (body : Except String SearxBody),
        ¬ (200 ≤ status ∧ status ≤ 299) →
        fetchPage p (HttpResult.response status serr body) =
          Sum.inr ("Page " ++ toString p ++ " failed: " ++ serr)) ∧
    (∀ (status : Nat) (serr m : String), 200 ≤ status ∧ status ≤ 299 →
        fetchPage p (HttpResult.response status serr (Except.error m)) =
          Sum.inr ("Page " ++ toString p ++ " failed: " ++ m)) ∧
    (∀ (status : Nat) (serr : String) (rs : List RawItem), 200 ≤ status ∧ status ≤ 299 →
        fetchPage p (HttpResult.response status serr (Except.ok ⟨some rs⟩)) = Sum.inl rs) ∧
    (∀ (status : Nat) (serr : String), 200 ≤ status ∧ status ≤ 299 →
        fetchPage p (HttpResult.response status serr (Except.ok ⟨none⟩)) = Sum.inl []) := by
  refine ⟨fun m => rfl, ?_, ?_, ?_, ?_⟩
  · intro status serr body h
    simp only [fetchPage]
    rw [if_neg h]
  · intro status serr m h
    simp only [fetchPage]
    rw [if_pos h]
  · intro status serr rs h
    simp only [fetchPage]
    rw [if_pos h]
  · intro status serr h
    simp only [fetchPage]
    rw [if_pos h]

/-- Witness for C6: each contract case evaluated at concrete inputs. -/
theorem c6_fetch_page_contract_witness :
    fetchPage 3 (HttpResult.transportError "timed out") = Sum.inr "Page 3 failed: timed out" ∧
    fetchPage 3 (HttpResult.response 404 "Client error 404" (Except.ok ⟨some []⟩)) =
      Sum.inr "Page 3 failed: Client error 404" ∧
    fetchPage 3 (HttpResult.response 200 "unused" (Except.error "Expecting value")) =
      Sum.inr "Page 3 failed: Expecting value" ∧
    fetchPage 3 (HttpResult.response 200 "unused" (Except.ok ⟨some [{ url := some "a" }]⟩)) =
      Sum.inl [{ url := some "a" }] ∧
    fetchPage 3 (HttpResult.response 204 "unused" (Except.ok ⟨none⟩)) = Sum.inl [] := by
  refine ⟨(c6_fetch_page_contract 3).1 "timed out",
          (c6_fetch_page_contract 3).2.1 404 "Client error 404" (Except.ok ⟨some []⟩) (by omega),
          (c6_fetch_page_contract 3).2.2.1 200 "unused" "Expecting value" (by omega),
          (c6_fetch_page_contract 3).2.2.2.1 200 "unused" [{ url := some "a" }] (by omega),
          (c6_fetch_page_contract 3).2.2.2.2 204 "unused" (by omega)⟩

/-! ### Claim C7 -/

/-- Claim C7: whenever `search` with `forLLM = false` returns normally, the
returned value is either a list consisting only of success-flagged
`WebsiteData` records, or exactly one `WebsiteError` with `success = false`
— never a string and never a mixture. -/
theorem c7_output_shape (env : Option String) (q : String) (N : Nat) (mr : Option Int)
    (net : Nat → HttpResult) (now : String) (out : SearchOutput)
    (h : asyncSearch env q N mr false net now = Except.ok out) :
    (∃ l, out = SearchOutput.data l ∧ ∀ d ∈ l, d.success = true) ∨
    (∃ e, out = SearchOutput.failure e ∧ e.success = false) := by
  cases env with
  | none => rw [asyncSearch] at h; cases h
  | some b =>
    by_cases hb : b = ""
    · subst hb
      rw [asyncSearch] at h
      cases h
    · rw [asyncSearch] at h
      rw [if_neg hb] at h
      cases hscan : scanPages now ((List.range' 1 N).map fun p => fetchPage p (net p)) with
      | error e => rw [hscan] at h; cases h
      | ok r =>
        rw [hscan] at h
        cases r with
        | inl msg =>
          simp only [Bool.false_eq_true, if_false] at h
          cases h
          exact Or.inr ⟨_, rfl, rfl⟩
        | inr allData =>
          simp only [Bool.false_eq_true, if_false] at h
          cases h
          exact Or.inl ⟨_, rfl, fun d hd =>
            scan_success now _ allData hscan d (mem_rankTruncate mr allData d hd)⟩

/-- Witness for C7 at a concrete successful zero-page call. -/
theorem c7_output_shape_witness :
    (∃ l, SearchOutput.data ([] : List WebsiteData) = SearchOutput.data l ∧
        ∀ d ∈ l, d.success = true) ∨
    (∃ e, SearchOutput.data ([] : List WebsiteData) = SearchOutput.failure e ∧
        e.success = false) :=
  c7_output_shape (some "http://searx.local") "q" 0 none
    (fun _ => HttpResult.transportError "unused") "t" (SearchOutput.data []) rfl

/-! ### Claim C9 -/

/-- Claim C9: normalization always stringifies `date` and `published_date`
(the fields of every successfully normalized record are `some` of the
f-string coercion), and a missing/null raw value becomes the literal text
`"None"`, not an empty or absent value. -/
theorem c9_stringify_dates (now : String) (it : RawItem) (d : WebsiteData)
    (h : normItem now it = Except.ok d) :
    d.date = some (pyStr it.date) ∧ d.published_date = some (pyStr it.published_date) ∧
    (it.date = none → d.date = some "None") ∧
    (it.published_date = none → d.published_date = some "None") := by
  cases hu : it.url with
  | none => rw [normItem_err now it hu] at h; cases h
  | some u =>
    rw [normItem_ok now it u hu] at h
    cases h
    refine ⟨by rw [totalNorm], by rw [totalNorm], ?_, ?_⟩
    · intro hd
      rw [totalNorm, hd]
      rfl
    · intro hd
      rw [totalNorm, hd]
      rfl

/-- Witness for C9 at a record with both date fields absent. -/
theorem c9_stringify_dates_witness :
    (totalNorm "2024-01-01T00:00:00" { url := some "https://a" } : WebsiteData).date =
        some (pyStr ({ url := some "https://a" } : RawItem).date) ∧
    (totalNorm "2024-01-01T00:00:00" { url := some "https://a" } : WebsiteData).published_date =
        some (pyStr ({ url := some "https://a" } : RawItem).published_date) ∧
    (({ url := some "https://a" } : RawItem).date = none →
        (totalNorm "2024-01-01T00:00:00" { url := some "https://a" } : WebsiteData).date = some "None") ∧
    (({ url := some "https://a" } : RawItem).published_date = none →
        (totalNorm "2024-01-01T00:00:00" { url := some "https://a" } : WebsiteData).published_date = some "None") :=
  c9_stringify_dates "2024-01-01T00:00:00" { url := some "https://a" } _ rfl

/-! ### Claim C1 -/

/-- Transport for the C1 counterexample: page 1's fetch succeeds but its
record lacks a `url`; page 2's fetch fails. -/
def netC1 : Nat → HttpResult := fun p =>
  if p = 1 then HttpResult.response 200 "" (Except.ok ⟨some [{ title := some "no url" }]⟩)
  else HttpResult.transportError "boom"

/-- Counterexample to C1 as stated: page 2's fetch yields a failure string
and page 1's fetch succeeds, yet the call raises the pydantic validation
error (page 1's record has no `url`) instead of returning the predicted
`SearchFailure` for page 2. -/
theorem c1_counterexample :
    asyncSearch (some "http://searx.local") "q" 2 none false netC1 "t" =
        Except.error SearchExc.validationError ∧
    asyncSearch (some "http://searx.local") "q" 2 none false netC1 "t" ≠
        Except.ok (SearchOutput.failure
          { query := "q", error := "Page 2 failed: boom", extracted_at := "t", success := false }) := by
  decide

/-- Claim C1 (amended): if page `k`'s fetch yields a failure string, the
fetches of all pages `< k` succeed, and additionally every record on those
earlier pages carries a string `url` (so that their normalization cannot
raise first), then the call returns exactly one `WebsiteError` whose message
is page `k`'s failure string and whose `query` is the original query —
regardless of the outcomes of pages `> k`; hence the lowest-numbered failing
page's message wins. -/
theorem c1_first_failure_wins (b query now msg : String) (hb : b ≠ "")
    (N k : Nat) (mr : Option Int) (net : Nat → HttpResult)
    (h1 : 1 ≤ k) (h2 : k ≤ N)
    (hk : fetchPage k (net k) = Sum.inr msg)
    (hpre : ∀ j, 1 ≤ j → j < k →
      ∃ its, fetchPage j (net j) = Sum.inl its ∧ ∀ it ∈ its, it.url ≠ none) :
    asyncSearch (some b) query N mr false net now =
      Except.ok (SearchOutput.failure
        { query := query, error := msg, extracted_at := now, success := false }) := by
  rw [asyncSearch, if_neg hb, scan_fail now net msg N 1 k h1 (by omega) hk hpre]
  rfl

/-- Transport for the C1 witness: the single page fails. -/
def netC1w : Nat → HttpResult := fun _ => HttpResult.transportError "boom"

/-- Witness for C1 (amended) at `N = k = 1`. -/
theorem c1_first_failure_wins_witness :
    asyncSearch (some "http://searx.local") "rust" 1 none false netC1w "t" =
      Except.ok (SearchOutput.failure
        { query := "rust", error := "Page 1 failed: boom", extracted_at := "t", success := false }) :=
  c1_first_failure_wins "http://searx.local" "rust" "t" "Page 1 failed: boom" (by decide)
    1 1 none netC1w (le_refl 1) (le_refl 1) rfl
    (fun j hj1 hj2 => absurd hj2 (by omega))

/-! ### Claim C2 -/

/-- A concrete record for the C2 counterexample. -/
def dC2 : WebsiteData := { url := "a", score := some 1 }

/-- Counterexample to C2 as stated: with a provided `maxResults = 0` and a
merged collection of size 1, Python's `if max_results:` truthiness check
skips the sort/truncation entirely, so the returned collection has size 1,
not `min(0, 1) = 0`. -/
theorem c2_counterexample :
    (rankTruncate (some 0) [dC2]).length = 1 ∧
    (rankTruncate (some 0) [dC2]).length ≠ min (Int.toNat 0) [dC2].length := by
  decide

/-- Claim C2 (amended): for every provided `maxResults = M ≥ 1` the returned
collection is the first `M` entries of the stable descending-by-score sort
of the merged collection, so it has size `min(M, S)` and is sorted
descending by score (missing score treated as 0), and the sort preserves the
original (page, then in-page) relative order of records with equal score —
for each score value, filtering the sorted collection yields exactly the
same subsequence as filtering the merged collection.  (A provided `M = 0` is
treated like an absent `maxResults` by the code's truthiness check.) -/
theorem c2_rank_truncate (m : Int) (hm : 1 ≤ m) (l : List WebsiteData) :
    rankTruncate (some m) l = (pySortDesc l).take m.toNat ∧
    (rankTruncate (some m) l).length = min m.toNat l.length ∧
    (rankTruncate (some m) l).Pairwise (fun a b => scoreKey b ≤ scoreKey a) ∧
    ∀ c : ℚ, (pySortDesc l).filter (fun d => decide (scoreKey d = c)) =
      l.filter (fun d => decide (scoreKey d = c)) := by
  have hm0 : m ≠ 0 := by omega
  have hnn : (0 : Int) ≤ m := by omega
  have heq : rankTruncate (some m) l = (pySortDesc l).take m.toNat := by
    rw [rankTruncate, if_neg hm0, pySlice, if_pos hnn]
  refine ⟨heq, ?_, ?_, fun c => filter_pySortDesc c l⟩
  · rw [heq, List.length_take, length_pySortDesc]
  · rw [heq]
    exact (pairwise_pySortDesc l).sublist (List.take_sublist _ _)

/-- The merged collection for the C2 witness (scores 9, 2, 5 in original
order). -/
def lC2 : List WebsiteData :=
  [{ url := "a", score := some 9 }, { url := "b", score := some 2 },
   { url := "c", score := some 5 }]

/-- Witness for C2 (amended) at `M = 2` over a three-record collection. -/
theorem c2_rank_truncate_witness :
    rankTruncate (some 2) lC2 = (pySortDesc lC2).take (Int.toNat 2) ∧
    (rankTruncate (some 2) lC2).length = min (Int.toNat 2) lC2.length ∧
    (rankTruncate (some 2) lC2).Pairwise (fun a b => scoreKey b ≤ scoreKey a) ∧
    ∀ c : ℚ, (pySortDesc lC2).filter (fun d => decide (scoreKey d = c)) =
      lC2.filter (fun d => decide (scoreKey d = c)) :=
  c2_rank_truncate 2 (by decide) lC2

/-! ### Claim C3 -/

/-- Transport for the C3 counterexample: the single page's fetch succeeds
but its record lacks a `url`. -/
def netC3 : Nat → HttpResult := fun _ =>
  HttpResult.response 200 "" (Except.ok ⟨some [{ content := some "c" }]⟩)

/-- Counterexample to C3 as stated: all page fetches succeed (second
conjunct), yet the call raises the validation error instead of returning a
collection with one record per raw record. -/
theorem c3_counterexample :
    asyncSearch (some "http://searx.local") "q3" 1 none false netC3 "t" =
        Except.error SearchExc.validationError ∧
    fetchPage 1 (netC3 1) = Sum.inl [{ content := some "c" }] := by
  decide

/-- Claim C3 (amended): if all `N` page fetches succeed and additionally
every raw record carries a string `url` (so normalization cannot raise),
then `search` with absent `maxResults` and `forLLM = false` returns exactly
one normalized record per raw record, in page order and in-page array
order, and the collection's length is the sum of the per-page result-array
lengths. -/
theorem c3_merge_all_pages (b q now : String) (hb : b ≠ "") (N : Nat)
    (net : Nat → HttpResult) (its : Nat → List RawItem)
    (hall : ∀ j, 1 ≤ j → j ≤ N →
      fetchPage j (net j) = Sum.inl (its j) ∧ ∀ it ∈ its j, it.url ≠ none) :
    asyncSearch (some b) q N none false net now =
      Except.ok (SearchOutput.data
        (concatAll ((List.range' 1 N).map (fun j => (its j).map (totalNorm now))))) ∧
    (concatAll ((List.range' 1 N).map (fun j => (its j).map (totalNorm now)))).length =
      ((List.range' 1 N).map (fun j => (its j).length)).sum := by
  constructor
  · rw [asyncSearch, if_neg hb,
        scan_ok now net its N 1 (fun j hj1 hj2 => hall j hj1 (by omega))]
    rfl
  · rw [length_concatAll, List.map_map]
    simp only [Function.comp_def, List.length_map]

/-- Transport for the C3 witness: page 1 has two records, page 2 one. -/
def netC3w : Nat → HttpResult := fun p =>
  if p = 1 then
    HttpResult.response 200 "" (Except.ok ⟨some [{ url := some "a" }, { url := some "b" }]⟩)
  else HttpResult.response 200 "" (Except.ok ⟨some [{ url := some "c" }]⟩)

/-- Per-page raw records for the C3 witness. -/
def itsC3w : Nat → List RawItem := fun p =>
  if p = 1 then [{ url := some "a" }, { url := some "b" }] else [{ url := some "c" }]

/-- Witness for C3 (amended) at `N = 2` with 2 + 1 records. -/
theorem c3_merge_all_pages_witness :
    asyncSearch (some "http://searx.local") "q" 2 none false netC3w "t" =
      Except.ok (SearchOutput.data
        (concatAll ((List.range' 1 2).map (fun j => (itsC3w j).map (totalNorm "t"))))) ∧
    (concatAll ((List.range' 1 2).map (fun j => (itsC3w j).map (totalNorm "t")))).length =
      ((List.range' 1 2).map (fun j => (itsC3w j).length)).sum :=
  c3_merge_all_pages "http://searx.local" "q" "t" (by decide) 2 netC3w itsC3w
    (fun j hj1 hj2 => by interval_cases j <;> exact ⟨rfl, by decide⟩)

/-! ### Claim C4 -/

/-- Transport for the C4 counterexample: one page, empty `results` array. -/
def netC4 : Nat → HttpResult := fun _ =>
  HttpResult.response 200 "" (Except.ok ⟨some []⟩)

/-- Counterexample to C4 as stated: a successful `forLLM = true` search over
zero surviving records returns the empty string, and splitting the empty
string on newline yields one (empty) line, not zero lines. -/
theorem c4_counterexample :
    asyncSearch (some "http://searx.local") "q4" 1 none true netC4 "t" =
        Except.ok (SearchOutput.llm "") ∧
    (splitNL (String.data "")).length = 1 ∧
    (splitNL (String.data "")).length ≠ ([] : List WebsiteData).length := by
  decide

/-- Claim C4 (amended): for a nonempty list of surviving records, the
newline-joined rendering returned on the successful `forLLM = true` path
(`renderLLM`, the exact expression `_async_search` wraps into its returned
string) splits on newline into exactly one line per record, and each line is
precisely that record's JSON serialization.  (With zero records the rendered
string is empty and splitting yields one empty line.) -/
theorem c4_llm_lines (l : List WebsiteData) (h : l ≠ []) :
    splitNL (renderLLM l) = l.map dumpJsonChars ∧
    (splitNL (renderLLM l)).length = l.length := by
  have hnl : ∀ x ∈ l.map dumpJsonChars, '\n' ∉ x := by
    intro x hx
    rcases List.mem_map.mp hx with ⟨d, _, rfl⟩
    exact nl_dumpJsonChars d
  have hne : l.map dumpJsonChars ≠ [] := by
    intro hmap
    exact h (List.map_eq_nil_iff.mp hmap)
  constructor
  · rw [renderLLM]
    exact splitNL_joinNL _ hne hnl
  · rw [renderLLM, splitNL_joinNL _ hne hnl, List.length_map]

/-- A concrete record for the C4 witness. -/
def dC4 : WebsiteData := { url := "https://r", score := some 3 }

/-- Witness for C4 (amended) at a one-record list. -/
theorem c4_llm_lines_witness :
    splitNL (renderLLM [dC4]) = [dC4].map dumpJsonChars ∧
    (splitNL (renderLLM [dC4])).length = [dC4].length :=
  c4_llm_lines [dC4] (by decide)

/-! ### Claim C8 -/

/-- Transport for the C8 counterexample: page 1's fetch succeeds with a
url-less record; page 2's fetch fails. -/
def netC8 : Nat → HttpResult := fun p =>
  if p = 1 then HttpResult.response 200 "" (Except.ok ⟨some [{ snippet := some "s" }]⟩)
  else HttpResult.transportError "offline"

/-- Counterexample to C8 as stated: a page fetch fails (page 2), yet the
`forLLM = true` call raises the validation error from page 1's record
instead of returning the raw failure message string. -/
theorem c8_counterexample :
    asyncSearch (some "http://searx.local") "q8" 2 none true netC8 "t" =
        Except.error SearchExc.validationError ∧
    asyncSearch (some "http://searx.local") "q8" 2 none true netC8 "t" ≠
        Except.ok (SearchOutput.llm "Page 2 failed: offline") := by
  decide

/-- Claim C8 (amended): when page `k`'s fetch fails, all earlier fetches
succeed, and every record on those earlier pages carries a string `url`,
the `forLLM = true` call returns the raw failure message string (not a
structured failure value), and the `forLLM = false` call returns only the
`WebsiteError` — in both modes the data already fetched from successful
pages is discarded from the output. -/
theorem c8_discard_on_failure (b query now msg : String) (hb : b ≠ "")
    (N k : Nat) (mr : Option Int) (net : Nat → HttpResult)
    (h1 : 1 ≤ k) (h2 : k ≤ N)
    (hk : fetchPage k (net k) = Sum.inr msg)
    (hpre : ∀ j, 1 ≤ j → j < k →
      ∃ its, fetchPage j (net j) = Sum.inl its ∧ ∀ it ∈ its, it.url ≠ none) :
    asyncSearch (some b) query N mr true net now = Except.ok (SearchOutput.llm msg) ∧
    asyncSearch (some b) query N mr false net now =
      Except.ok (SearchOutput.failure
        { query := query, error := msg, extracted_at := now, success := false }) := by
  constructor <;>
    (rw [asyncSearch, if_neg hb, scan_fail now net msg N 1 k h1 (by omega) hk hpre] ; rfl)

/-- Transport for the C8 witness: page 1 succeeds with one valid record,
page 2 (and beyond) time out. -/
def netC8w : Nat → HttpResult := fun p =>
  if p = 1 then HttpResult.response 200 "" (Except.ok ⟨some [{ url := some "https://r1" }]⟩)
  else HttpResult.transportError "timeout"

/-- Witness for C8 (amended) at `N = 3`, first failure on page 2. -/
theorem c8_discard_on_failure_witness :
    asyncSearch (some "http://searx.local") "q" 3 none true netC8w "t" =
      Except.ok (SearchOutput.llm "Page 2 failed: timeout") ∧
    asyncSearch (some "http://searx.local") "q" 3 none false netC8w "t" =
      Except.ok (SearchOutput.failure
        { query := "q", error := "Page 2 failed: timeout", extracted_at := "t", success := false }) :=
  c8_discard_on_failure "http://searx.local" "q" "t" "Page 2 failed: timeout" (by decide)
    3 2 none netC8w (by omega) (by omega) rfl
    (fun j hj1 hj2 => by interval_cases j; exact ⟨[{ url := some "https://r1" }], rfl, by decide⟩)

/-! ### Claim C10 -/

/-- Transport for the C10 counterexample: page 1's fetch fails, page 2's
fetch succeeds with a url-less record. -/
def netC10 : Nat → HttpResult := fun p =>
  if p = 1 then HttpResult.transportError "down"
  else HttpResult.response 200 "" (Except.ok ⟨some [{ author := some "x" }]⟩)

/-- Counterexample to C10 as stated: page 2 is a successful page whose
results contain a record lacking a string `url` (third conjunct), yet the
call returns page 1's `WebsiteError` and raises no validation exception. -/
theorem c10_counterexample :
    asyncSearch (some "http://searx.local") "q10" 2 none false netC10 "t" =
        Except.ok (SearchOutput.failure
          { query := "q10", error := "Page 1 failed: down", extracted_at := "t", success := false }) ∧
    asyncSearch (some "http://searx.local") "q10" 2 none false netC10 "t" ≠
        Except.error SearchExc.validationError ∧
    fetchPage 2 (netC10 2) = Sum.inl [{ author := some "x" }] := by
  decide

/-- Claim C10 (amended): if every page before page `p` fetched successfully
and page `p` fetched successfully with some record lacking a string `url`,
the call raises the uncaught pydantic validation error during normalization
— it returns neither a `SearchFailure` value nor a result collection.  (If
an earlier page's fetch failed, the failure value is returned before the
offending page is normalized.)  Normalization of a record succeeds only
under the precondition that the record carries a string `url`. -/
theorem c10_validation_raises (b q now : String) (hb : b ≠ "") (N p : Nat)
    (mr : Option Int) (fl : Bool) (net : Nat → HttpResult)
    (h1 : 1 ≤ p) (h2 : p ≤ N)
    (hpre : ∀ j, 1 ≤ j → j < p → ∃ its, fetchPage j (net j) = Sum.inl its)
    (hp : ∃ its, fetchPage p (net p) = Sum.inl its ∧ ∃ it ∈ its, it.url = none) :
    asyncSearch (some b) q N mr fl net now = Except.error SearchExc.validationError := by
  rw [asyncSearch, if_neg hb, scan_val now net N 1 p h1 (by omega) hpre hp]

/-- Transport for the C10 witness: the single page succeeds with a url-less
record. -/
def netC10w : Nat → HttpResult := fun _ =>
  HttpResult.response 200 "" (Except.ok ⟨some [{ engine := some "g" }]⟩)

/-- Witness for C10 (amended) at `N = p = 1`. -/
theorem c10_validation_raises_witness :
    asyncSearch (some "http://searx.local") "w10" 1 none false netC10w "t" =
      Except.error SearchExc.validationError :=
  c10_validation_raises "http://searx.local" "w10" "t" (by decide) 1 1 none false netC10w
    (le_refl 1) (le_refl 1) (fun j hj1 hj2 => absurd hj2 (by omega))
    ⟨[{ engine := some "g" }], rfl, { engine := some "g" }, by decide, rfl⟩

end SerpSearch
